import Mathlib

/-!
Verification of the `kasa` smartplug repository (files `plug_tracker.py`,
`plug_blink.py`, `plug_toggle.py`) against its natural-language specification.

Modelling conventions, chosen to mirror the Python source directly:

* A Python `str` is a list of Unicode code points (`List Nat`); a Python
  `bytes` is a list of naturals below 256 (`List Nat` with a `< 256` bound
  carried in hypotheses where it matters).
* `struct.pack` with format `>I` raises `struct.error` for arguments at or
  above `2 ^ 32 = 4294967296`, and `bytes([a])` raises `ValueError` for
  `a ≥ 256`; both failure modes are modelled with `Option`.
* Machine integers do not occur: Python integers are unbounded, so `Nat`
  and `Int` are exact models.
-/

namespace PlugTracker

/-- `pack('>I', n)` from `plug_tracker.py` line 38: the 4-byte big-endian
encoding of `n`.  Defined only when `n < 4294967296`; the caller `encrypt`
carries that guard.  `16777216 = 2 ^ 24`, `65536 = 2 ^ 16`. -/
def packBE4 (n : Nat) : List Nat :=
  [n / 16777216 % 256, n / 65536 % 256, n / 256 % 256, n % 256]

/-- The loop of `encrypt` (`plug_tracker.py` lines 39-42): for each input
code point `c`, `a = key ^^^ c` is emitted and becomes the next key.
`bytes([a])` raises `ValueError` unless `a < 256`, hence the `Option`.
(The source names the intermediate value `a`; it is written out here.) -/
def encryptBody (key : Nat) : List Nat → Option (List Nat)
  | [] => some []
  | c :: rest =>
    if key ^^^ c < 256 then
      (encryptBody (key ^^^ c) rest).map (fun r => (key ^^^ c) :: r)
    else none

/-- `encrypt` from `plug_tracker.py` lines 35-43: a 4-byte big-endian
length followed by the XOR chain seeded with 171.
`pack('>I', len(string))` raises for lengths at or above `2 ^ 32`. -/
def encrypt (s : List Nat) : Option (List Nat) :=
  if s.length < 4294967296 then
    (encryptBody 171 s).map (fun body => packBE4 s.length ++ body)
  else none

/-- The loop of `decrypt` (`plug_tracker.py` lines 50-53): for each input
byte `i`, `a = key ^^^ i` is emitted and `i` (not `a`) becomes the next
key. -/
def decryptGo (key : Nat) : List Nat → List Nat
  | [] => []
  | i :: rest => (key ^^^ i) :: decryptGo i rest

/-- `decrypt` from `plug_tracker.py` lines 46-54.  On its actual domain
(`bytes`, every element below 256) every `chr(a)` call is in range, so the
function is total. -/
def decrypt (s : List Nat) : List Nat := decryptGo 171 s

/-- Reading a 4-byte sequence as a big-endian unsigned integer (the
spec-side interpretation of the length field). -/
def fromBE4 (l : List Nat) : Nat := l.foldl (fun acc b => acc * 256 + b) 0

end PlugTracker

namespace SmartPlug

/-- The loop of `SmartPlug.encrypt` (`plug_blink.py` lines 28-35); the
algorithm is textually identical to `plug_tracker.encrypt`'s loop. -/
def encryptBody (key : Nat) : List Nat → Option (List Nat)
  | [] => some []
  | c :: rest =>
    if key ^^^ c < 256 then
      (encryptBody (key ^^^ c) rest).map (fun r => (key ^^^ c) :: r)
    else none

/-- `SmartPlug.encrypt` from `plug_blink.py` lines 27-35. -/
def encrypt (s : List Nat) : Option (List Nat) :=
  if s.length < 4294967296 then
    (encryptBody 171 s).map (fun body => PlugTracker.packBE4 s.length ++ body)
  else none

/-- The loop of `SmartPlug.decrypt` (`plug_blink.py` lines 38-45). -/
def decryptGo (key : Nat) : List Nat → List Nat
  | [] => []
  | i :: rest => (key ^^^ i) :: decryptGo i rest

/-- `SmartPlug.decrypt` from `plug_blink.py` lines 37-45. -/
def decrypt (s : List Nat) : List Nat := decryptGo 171 s

end SmartPlug

namespace PlugToggle

/-- The loop of `encrypt` (`plug_toggle.py` lines 16-19). -/
def encryptBody (key : Nat) : List Nat → Option (List Nat)
  | [] => some []
  | c :: rest =>
    if key ^^^ c < 256 then
      (encryptBody (key ^^^ c) rest).map (fun r => (key ^^^ c) :: r)
    else none

/-- `encrypt` from `plug_toggle.py` lines 13-20. -/
def encrypt (s : List Nat) : Option (List Nat) :=
  if s.length < 4294967296 then
    (encryptBody 171 s).map (fun body => PlugTracker.packBE4 s.length ++ body)
  else none

/-- The loop of `decrypt` (`plug_toggle.py` lines 26-29). -/
def decryptGo (key : Nat) : List Nat → List Nat
  | [] => []
  | i :: rest => (key ^^^ i) :: decryptGo i rest

/-- `decrypt` from `plug_toggle.py` lines 23-30. -/
def decrypt (s : List Nat) : List Nat := decryptGo 171 s

end PlugToggle

namespace PlugTracker

/-! ### Scheduler (`plug_tracker.py` lines 102-154)

A Python `datetime.time` value compares lexicographically on
(hour, minute, second, microsecond), which is order-isomorphic to the
number of microseconds since midnight; a time-of-day is therefore modelled
as a `Nat` of microseconds (valid values are below `86400000000`).
A `datetime.datetime` is a calendar day (`Nat`, days since some epoch)
plus a time-of-day. -/

def usPerDay : Nat := 86400000000

/-- A Python `datetime.datetime`: day index and microseconds since
midnight (`tod < usPerDay` for values representing real datetimes). -/
structure PyDateTime where
  day : Nat
  tod : Nat
  deriving DecidableEq

/-- Total microseconds of a datetime (for subtraction). -/
def PyDateTime.toUs (dt : PyDateTime) : Nat := dt.day * usPerDay + dt.tod

/-- `Scheduler` (`plug_tracker.py` lines 102-109): the window list plus the
`always_active` flag computed once in `__init__`. -/
structure Scheduler where
  active_windows : List (Nat × Nat)
  always_active : Bool

/-- `Scheduler.__init__` (`plug_tracker.py` lines 105-109):
`always_active = len(active_windows) == 0`. -/
def Scheduler.init (ws : List (Nat × Nat)) : Scheduler :=
  ⟨ws, ws.length == 0⟩

/-- `Scheduler.is_active` (`plug_tracker.py` lines 111-123).  The source's
for-loop with early `return True` and final `return False` is the list
`any`: a window with `start ≤ end` matches when `start ≤ t ≤ end`, a
window crossing midnight matches when `t ≥ start or t ≤ end`. -/
def Scheduler.is_active (sch : Scheduler) (t : Nat) : Bool :=
  if sch.always_active then true
  else sch.active_windows.any fun w =>
    if w.1 ≤ w.2 then decide (w.1 ≤ t ∧ t ≤ w.2)
    else decide (t ≥ w.1 ∨ t ≤ w.2)

/-- The per-window wait of `seconds_until_next_active` (`plug_tracker.py`
lines 135-144): `next_start` is today at `start` when `start > now.tod`,
else tomorrow at `start`; the wait is `next_start - current_dt` in
microseconds.  (`Nat` subtraction: for real datetimes, `tod < usPerDay`,
the difference is the exact Python `timedelta`, which is positive.) -/
def waitUs (start : Nat) (now : PyDateTime) : Nat :=
  let next_start := if start > now.tod
    then PyDateTime.mk now.day start
    else PyDateTime.mk (now.day + 1) start
  next_start.toUs - now.toUs

/-- Spec-side comparison definition, following the words of spec section
4.3: the microseconds from `now` to the next wall-clock occurrence of the
time-of-day `start` — today when `start` is strictly later than `now`'s
time-of-day, otherwise tomorrow.  Proved equal to the source-side `waitUs`
in `waitUs_eq_spec`. -/
def specNextWaitUs (start : Nat) (now : PyDateTime) : Nat :=
  if now.tod < start then start - now.tod
  else usPerDay + start - now.tod

/-- The accumulation loop of `seconds_until_next_active` (`plug_tracker.py`
lines 131-147): `min_wait_seconds` starts at `float('inf')` and
`found_window` at `False`; `none` models that initial state, `some m` the
state after at least one window was seen. -/
def minWaitLoop (now : PyDateTime) (acc : Option Nat) :
    List (Nat × Nat) → Option Nat
  | [] => acc
  | w :: rest =>
    let wt := waitUs w.1 now
    let acc2 := match acc with
      | none => some wt
      | some m => if wt < m then some wt else some m
    minWaitLoop now acc2 rest

/-- `Scheduler.seconds_until_next_active` (`plug_tracker.py` lines
125-154).  The source returns `int(min_wait_seconds)` where each wait is
`timedelta.total_seconds()`, a positive value with microsecond resolution;
`int` truncates toward zero, which on positive values is the floor, i.e.
`Nat` division of the microsecond wait by `10 ^ 6`.  (The `float` detour
is exact here: the waits are at most one day, far below any magnitude at
which double rounding could move a value across an integer.) -/
def Scheduler.seconds_until_next_active (sch : Scheduler)
    (now : PyDateTime) : Nat :=
  if sch.always_active then 0
  else match minWaitLoop now none sch.active_windows with
    | some m => m / 1000000
    | none => 0

/-! ### Tracker tick (`plug_tracker.py` lines 157-207)

`PlugTracker.__init__` sets `self.prev_state = -1`; `-1` is the Unknown
sentinel.  One `tick` is a pure function of the previous state and of the
outcomes the environment supplies for the two network calls; it returns
the new `prev_state` together with the list of follower-write arguments
that were attempted (in order). -/

/-- Outcome of `self.leader_client.get_relay_state()`: either a state
value, or one of the caught `(socket.error, socket.timeout)` exceptions. -/
inductive LeaderRead where
  | ok (v : Int)
  | transportError
  deriving DecidableEq

/-- Outcome the environment chooses for a follower write, were one
attempted: success, or a caught `(socket.error, socket.timeout)`. -/
inductive FollowerWrite where
  | ok
  | transportError
  deriving DecidableEq

/-- `PlugTracker.tick` (`plug_tracker.py` lines 191-207).  Returns the new
`prev_state` and the follower writes attempted.  The write outcome `w` is
only logged by the source (lines 205-206), so it influences neither
component — the state update on line 207 runs regardless. -/
def tick (prev : Int) (r : LeaderRead) (w : FollowerWrite) :
    Int × List Int :=
  match r, w with
  | .transportError, _ => (prev, [])
  | .ok v, _ =>
    if v ≠ prev then
      if prev ≠ -1 then (v, [v]) else (v, [])
    else (prev, [])

/-! ### SmartPlugClient.set_relay_state (`plug_tracker.py` lines 57-99) -/

/-- The 42 ASCII code points of
`'\x7b"system":\x7b"set_relay_state":\x7b"state":0\x7d\x7d\x7d'`
(`plug_tracker.py` line 59). -/
def jsonSetState0 : List Nat :=
  [123, 34, 115, 121, 115, 116, 101, 109, 34, 58, 123, 34, 115, 101, 116,
   95, 114, 101, 108, 97, 121, 95, 115, 116, 97, 116, 101, 34, 58, 123,
   34, 115, 116, 97, 116, 101, 34, 58, 48, 125, 125, 125]

/-- Same with final state `1` (`plug_tracker.py` line 60). -/
def jsonSetState1 : List Nat :=
  [123, 34, 115, 121, 115, 116, 101, 109, 34, 58, 123, 34, 115, 101, 116,
   95, 114, 101, 108, 97, 121, 95, 115, 116, 97, 116, 101, 34, 58, 123,
   34, 115, 116, 97, 116, 101, 34, 58, 49, 125, 125, 125]

/-- `COMMANDS['state'][0]`: the encrypted set-state-0 payload.  `encrypt`
succeeds on this ASCII string (see `commands_encrypt_ok`), so `getD []`
merely unwraps the `some`. -/
def cmdState0 : List Nat := (encrypt jsonSetState0).getD []

/-- `COMMANDS['state'][1]`. -/
def cmdState1 : List Nat := (encrypt jsonSetState1).getD []

/-- The dict `COMMANDS['state']` (`plug_tracker.py` lines 57-63): an
indexing lookup that raises `KeyError` (`none`) for keys other than
`0` and `1`. -/
def COMMANDS_state (st : Int) : Option (List Nat) :=
  if st = 0 then some cmdState0
  else if st = 1 then some cmdState1
  else none

/-- Observable socket events of one `set_relay_state` call. -/
inductive Ev where
  | connect
  | send (data : List Nat)
  | close
  deriving DecidableEq

/-- How a `set_relay_state` call ends. -/
inductive SetOutcome where
  | ok
  | keyError
  | transportError
  deriving DecidableEq

/-- `SmartPlugClient.set_relay_state` (`plug_tracker.py` lines 93-99) as
an event trace: `sock = self._connect()` runs first (line 95); only then
is the argument `COMMANDS['state'][state]` evaluated inside the `try`, so
an illegal state raises `KeyError` after the connection is open, and the
`finally` closes the socket.  `connectOk` is the environment's verdict on
`_connect` (a refused/timed-out connect raises before any event). -/
def set_relay_state (connectOk : Bool) (state : Int) :
    List Ev × SetOutcome :=
  if connectOk then
    match COMMANDS_state state with
    | some cmd => ([Ev.connect, Ev.send cmd, Ev.close], SetOutcome.ok)
    | none => ([Ev.connect, Ev.close], SetOutcome.keyError)
  else ([], SetOutcome.transportError)


lemma xor_lt_256 {a b : Nat} (ha : a < 256) (hb : b < 256) : a ^^^ b < 256 := by
  have h := Nat.bitwise_lt_two_pow (n := 8) (f := Bool.xor) ha hb
  simpa [Nat.xor] using h

/-- If the key and every code point are bytes, the encrypt loop succeeds. -/
lemma encryptBody_isSome (s : List Nat) : ∀ key : Nat, key < 256 →
    (∀ c ∈ s, c < 256) → ∃ body, encryptBody key s = some body := by
  induction s with
  | nil => exact fun key _ _ => ⟨[], rfl⟩
  | cons c rest ih =>
    intro key hk hs
    have hc : c < 256 := hs c (by simp)
    have ha : key ^^^ c < 256 := xor_lt_256 hk hc
    obtain ⟨b, hb⟩ := ih (key ^^^ c) ha (fun x hx => hs x (by simp [hx]))
    exact ⟨(key ^^^ c) :: b, by simp [encryptBody, ha, hb]⟩

/-- The decrypt loop inverts the encrypt loop at the same seed key: encrypt
advances its key on the output byte, decrypt advances its key on the input
byte, and decrypt's input is encrypt's output, so the two key streams agree. -/
lemma decryptGo_encryptBody (s : List Nat) : ∀ (key : Nat) (body : List Nat),
    encryptBody key s = some body → decryptGo key body = s := by
  induction s with
  | nil =>
    intro key body h
    simp only [encryptBody, Option.some.injEq] at h
    subst h
    rfl
  | cons c rest ih =>
    intro key body h
    simp only [encryptBody] at h
    by_cases ha : key ^^^ c < 256
    · rw [if_pos ha, Option.map_eq_some'] at h
      obtain ⟨b, hb, rfl⟩ := h
      simp [decryptGo, ih _ _ hb, Nat.xor_cancel_left]
    · rw [if_neg ha] at h
      exact absurd h (by simp)

/-- The encrypt loop emits exactly one byte per input code point. -/
lemma encryptBody_length (s : List Nat) : ∀ (key : Nat) (body : List Nat),
    encryptBody key s = some body → body.length = s.length := by
  induction s with
  | nil =>
    intro key body h
    simp only [encryptBody, Option.some.injEq] at h
    subst h
    rfl
  | cons c rest ih =>
    intro key body h
    simp only [encryptBody] at h
    by_cases ha : key ^^^ c < 256
    · rw [if_pos ha, Option.map_eq_some'] at h
      obtain ⟨b, hb, rfl⟩ := h
      simp [ih _ _ hb]
    · rw [if_neg ha] at h
      exact absurd h (by simp)

/-- Every output byte of the decrypt loop is a byte (so every `chr` call in
the source succeeds) provided the key and the input are bytes. -/
lemma decryptGo_lt_256 (s : List Nat) : ∀ key : Nat, key < 256 →
    (∀ i ∈ s, i < 256) → ∀ c ∈ decryptGo key s, c < 256 := by
  induction s with
  | nil => intro key _ _ c hc; simp [decryptGo] at hc
  | cons i rest ih =>
    intro key hk hs c hc
    simp only [decryptGo, List.mem_cons] at hc
    rcases hc with rfl | hc
    · exact xor_lt_256 hk (hs i (by simp))
    · exact ih i (hs i (by simp)) (fun x hx => hs x (by simp [hx])) c hc

/-- The decrypt loop emits one character per input byte. -/
lemma decryptGo_length (s : List Nat) : ∀ key : Nat,
    (decryptGo key s).length = s.length := by
  induction s with
  | nil => intro key; rfl
  | cons i rest ih => intro key; simp [decryptGo, ih]

/-- `encrypt [256] = none`: on the one-character string U+0100 the source's
`bytes([a])` raises `ValueError` (`171 ^^^ 256 = 427`). -/
lemma encrypt_256_none : encrypt [256] = none := by decide

/-- `encrypt` fails on any input of length `2 ^ 32`: `pack('>I', ...)`
raises `struct.error`. -/
lemma encrypt_long_none : encrypt (List.replicate 4294967296 0) = none := by
  unfold encrypt
  rw [List.length_replicate, if_neg (lt_irrefl 4294967296)]

lemma commands_encrypt_ok :
    (encrypt jsonSetState0).isSome ∧ (encrypt jsonSetState1).isSome := by
  decide

/-- The source's per-window wait equals the spec's description of it. -/
lemma waitUs_eq_spec (start : Nat) (now : PyDateTime) :
    waitUs start now = specNextWaitUs start now := by
  unfold waitUs specNextWaitUs PyDateTime.toUs usPerDay
  by_cases h : now.tod < start
  · simp only [gt_iff_lt, if_pos h]
    omega
  · simp only [gt_iff_lt, if_neg h]
    omega

/-- A non-empty window list turns the cached `always_active` flag off. -/
lemma init_len_beq_false {ws : List (Nat × Nat)} (hne : ws ≠ []) :
    (ws.length == 0) = false :=
  beq_eq_false_iff_ne.mpr fun h => hne (List.length_eq_zero.mp h)

/-- Reading back the 4-byte big-endian encoding recovers the length. -/
lemma fromBE4_packBE4 (n : Nat) (h : n < 4294967296) :
    fromBE4 (packBE4 n) = n := by
  unfold fromBE4 packBE4
  simp only [List.foldl_cons, List.foldl_nil]
  omega

lemma minWaitLoop_none_cons (now : PyDateTime) (w : Nat × Nat)
    (rest : List (Nat × Nat)) :
    minWaitLoop now none (w :: rest)
      = minWaitLoop now (some (waitUs w.1 now)) rest := rfl

/-- Running the minimum-tracking loop from an already-seen value `a`
yields the minimum of `a` and all per-window waits. -/
lemma minWaitLoop_some (now : PyDateTime) (ws : List (Nat × Nat)) :
    ∀ a : Nat, ∃ m, minWaitLoop now (some a) ws = some m ∧
      (m = a ∨ m ∈ ws.map fun w => waitUs w.1 now) ∧ m ≤ a ∧
      ∀ x ∈ ws.map (fun w => waitUs w.1 now), m ≤ x := by
  induction ws with
  | nil => exact fun a => ⟨a, rfl, Or.inl rfl, le_refl a, by simp⟩
  | cons w rest ih =>
    intro a
    have hstep : minWaitLoop now (some a) (w :: rest)
        = minWaitLoop now (some (min (waitUs w.1 now) a)) rest := by
      show minWaitLoop now
        (if waitUs w.1 now < a then some (waitUs w.1 now) else some a) rest
          = _
      by_cases h : waitUs w.1 now < a
      · rw [if_pos h, min_eq_left (le_of_lt h)]
      · rw [if_neg h, min_eq_right (le_of_not_lt h)]
    obtain ⟨m, hm, hmem, hle, hbd⟩ := ih (min (waitUs w.1 now) a)
    refine ⟨m, hstep ▸ hm, ?_, le_trans hle (min_le_right _ _), ?_⟩
    · rcases hmem with rfl | h
      · rcases min_choice (waitUs w.1 now) a with h | h
        · exact Or.inr (by simp [h])
        · exact Or.inl h
      · exact Or.inr (by simp [h])
    · intro x hx
      simp only [List.map_cons, List.mem_cons] at hx
      rcases hx with rfl | hx
      · exact le_trans hle (min_le_left _ _)
      · exact hbd x hx

/-- On a non-empty window list the loop returns the least per-window
wait. -/
lemma minWaitLoop_spec (now : PyDateTime) (ws : List (Nat × Nat))
    (hne : ws ≠ []) :
    ∃ m, minWaitLoop now none ws = some m ∧
      m ∈ ws.map (fun w => waitUs w.1 now) ∧
      ∀ x ∈ ws.map (fun w => waitUs w.1 now), m ≤ x := by
  match ws, hne with
  | w :: rest, _ =>
    rw [minWaitLoop_none_cons]
    obtain ⟨m, hm, hmem, hle, hbd⟩ := minWaitLoop_some now rest (waitUs w.1 now)
    refine ⟨m, hm, ?_, ?_⟩
    · rcases hmem with rfl | h
      · simp
      · simp [h]
    · intro x hx
      simp only [List.map_cons, List.mem_cons] at hx
      rcases hx with rfl | hx
      · exact hle
      · exact hbd x hx

/-- A single window's match test, rephrased as the spec states it. -/
lemma window_pred_iff (w : Nat × Nat) (t : Nat) :
    ((if w.1 ≤ w.2 then decide (w.1 ≤ t ∧ t ≤ w.2)
      else decide (t ≥ w.1 ∨ t ≤ w.2)) = true) ↔
    ((w.1 ≤ w.2 ∧ w.1 ≤ t ∧ t ≤ w.2) ∨
      (w.2 < w.1 ∧ (w.1 ≤ t ∨ t ≤ w.2))) := by
  by_cases h : w.1 ≤ w.2
  · simp only [if_pos h, decide_eq_true_eq]
    omega
  · simp only [if_neg h, decide_eq_true_eq]
    omega

end PlugTracker

/-! ## Claim theorems -/

open PlugTracker

/-- C1 (amended): for every string whose code points are all below 256 and
whose length is below `2 ^ 32`, `encrypt` succeeds and decrypting its
output with the first 4 bytes stripped returns the original string; the
empty string satisfies both hypotheses (second witness conjunct). -/
theorem claim1_roundtrip (s : List Nat) (hc : ∀ c ∈ s, c < 256)
    (hlen : s.length < 4294967296) :
    ∃ out, encrypt s = some out ∧ decrypt (out.drop 4) = s := by
  obtain ⟨body, hb⟩ := encryptBody_isSome s 171 (by norm_num) hc
  refine ⟨packBE4 s.length ++ body, ?_, ?_⟩
  · simp [encrypt, hlen, hb]
  · have hdrop : (packBE4 s.length ++ body).drop 4 = body := rfl
    rw [hdrop]
    exact decryptGo_encryptBody s 171 body hb

/-- C1 witness: the amended round-trip at the string "hi" ([104, 105]) and
at the empty string. -/
theorem claim1_roundtrip_witness :
    (∃ out, encrypt [104, 105] = some out ∧
      decrypt (out.drop 4) = [104, 105]) ∧
    (∃ out, encrypt [] = some out ∧ decrypt (out.drop 4) = []) :=
  ⟨claim1_roundtrip [104, 105] (by decide) (by norm_num),
   claim1_roundtrip [] (by simp) (by norm_num)⟩

/-- C1 counterexample: the claim quantifies over every string.  On the
one-character string U+0100 (code point 256) the source raises
`ValueError` in `bytes([a])` (`171 ^^^ 256 = 427`), so the round-trip
returns nothing; on any string of length `2 ^ 32` the length prefix
`pack('>I', ...)` raises `struct.error`. -/
theorem claim1_cex :
    (¬ ∃ out, encrypt [256] = some out ∧ decrypt (out.drop 4) = [256]) ∧
    encrypt (List.replicate 4294967296 0) = none := by
  refine ⟨?_, encrypt_long_none⟩
  rintro ⟨out, h, -⟩
  rw [encrypt_256_none] at h
  exact Option.noConfusion h

/-- C2: on a tick whose leader read succeeds with state `v` — whatever the
follower-write outcome `w` the environment would supply — if the previous
state is the Unknown sentinel `-1`, no follower write is attempted and the
state becomes `v`; if `v` equals the previous state, no write is attempted
and the state is unchanged; if `v` differs from a known previous state,
exactly one follower write with argument `v` is attempted and the state
becomes `v`. -/
theorem claim2_tick_success (prev v : Int) (w : FollowerWrite) :
    (prev = -1 → tick prev (LeaderRead.ok v) w = (v, [])) ∧
    (v = prev → tick prev (LeaderRead.ok v) w = (prev, [])) ∧
    (v ≠ prev → prev ≠ -1 → tick prev (LeaderRead.ok v) w = (v, [v])) := by
  refine ⟨?_, ?_, ?_⟩
  · rintro rfl
    by_cases hv : v = -1
    · subst hv
      simp [tick]
    · simp [tick, hv]
  · rintro rfl
    simp [tick]
  · intro h1 h2
    simp [tick, h1, h2]

/-- C2 witness: the spec's three-tick scenario — from Unknown, observing 0
records 0 with no write; observing 0 again does nothing; observing 1 then
attempts exactly one write with argument 1. -/
theorem claim2_tick_success_witness :
    tick (-1) (LeaderRead.ok 0) FollowerWrite.ok = (0, []) ∧
    tick 0 (LeaderRead.ok 0) FollowerWrite.ok = (0, []) ∧
    tick 0 (LeaderRead.ok 1) FollowerWrite.ok = (1, [1]) :=
  ⟨(claim2_tick_success (-1) 0 FollowerWrite.ok).1 rfl,
   (claim2_tick_success 0 0 FollowerWrite.ok).2.1 rfl,
   (claim2_tick_success 0 1 FollowerWrite.ok).2.2 (by decide) (by decide)⟩

/-- C3: when the leader read succeeds with `v` differing from a known
previous state and the follower write raises a transport error, the
previous state is nevertheless updated to `v` and the write was attempted
exactly once (the source has no retry loop around it). -/
theorem claim3_write_failure (prev v : Int) (h1 : prev ≠ -1)
    (h2 : v ≠ prev) :
    tick prev (LeaderRead.ok v) FollowerWrite.transportError = (v, [v]) := by
  simp [tick, h1, h2]

/-- C3 witness: previous state 0, leader now 1, follower write fails. -/
theorem claim3_write_failure_witness :
    tick 0 (LeaderRead.ok 1) FollowerWrite.transportError = (1, [1]) :=
  claim3_write_failure 0 1 (by decide) (by decide)

/-- C4: when the leader read raises a transport error, the tick leaves the
previous state unchanged and attempts no follower write, whatever the
previous state and whatever write outcome the environment would supply. -/
theorem claim4_read_failure (prev : Int) (w : FollowerWrite) :
    tick prev LeaderRead.transportError w = (prev, []) := rfl

/-- C5: with an empty window list `is_active` is true at every time of
day; with a non-empty list it is true exactly when some window matches —
a non-wrapping window (`start ≤ end`) by `start ≤ t ≤ end`, a wrapping
window (`start > end`) by `t ≥ start` or `t ≤ end` — OR-combined over the
windows. -/
theorem claim5_is_active (ws : List (Nat × Nat)) (t : Nat) :
    (ws = [] → (Scheduler.init ws).is_active t = true) ∧
    (ws ≠ [] → ((Scheduler.init ws).is_active t = true ↔
      ∃ w ∈ ws, (w.1 ≤ w.2 ∧ w.1 ≤ t ∧ t ≤ w.2) ∨
        (w.2 < w.1 ∧ (w.1 ≤ t ∨ t ≤ w.2)))) := by
  refine ⟨?_, ?_⟩
  · rintro rfl
    rfl
  · intro hne
    have hflag := init_len_beq_false hne
    simp only [Scheduler.is_active, Scheduler.init, hflag,
      Bool.false_eq_true, if_false, List.any_eq_true]
    exact exists_congr fun w => and_congr_right fun _ => window_pred_iff w t

/-- C5 witness: an empty schedule is active at time 7; the schedule with
the single window (2, 5) is active at time 3. -/
theorem claim5_is_active_witness :
    (Scheduler.init []).is_active 7 = true ∧
    (Scheduler.init [(2, 5)]).is_active 3 = true :=
  ⟨(claim5_is_active [] 7).1 rfl,
   ((claim5_is_active [(2, 5)] 3).2 (by decide)).mpr
     ⟨(2, 5), by simp, Or.inl (by decide)⟩⟩

/-- C6: with an empty window list `seconds_until_next_active` returns 0;
with a non-empty list it returns the floor in whole seconds (microsecond
wait divided by `10 ^ 6`) of the least wait to any window's next start —
today if the start time-of-day is strictly later than now's, otherwise
tomorrow — a natural number, hence non-negative.  Concretely (times of day
in microseconds): with window (08:00, 10:00) it returns 3600 at 07:00 and
72000 at 12:00, and adding window (20:00, 22:00) makes it return 28800 at
12:00. -/
theorem claim6_seconds_until_next_active :
    (∀ now, (Scheduler.init []).seconds_until_next_active now = 0) ∧
    (∀ (ws : List (Nat × Nat)) (now : PyDateTime), ws ≠ [] →
      ∃ m, m ∈ ws.map (fun w => specNextWaitUs w.1 now) ∧
        (∀ x ∈ ws.map (fun w => specNextWaitUs w.1 now), m ≤ x) ∧
        (Scheduler.init ws).seconds_until_next_active now = m / 1000000) ∧
    (Scheduler.init
      [(28800000000, 36000000000)]).seconds_until_next_active
        ⟨0, 25200000000⟩ = 3600 ∧
    (Scheduler.init
      [(28800000000, 36000000000)]).seconds_until_next_active
        ⟨0, 43200000000⟩ = 72000 ∧
    (Scheduler.init
      [(28800000000, 36000000000),
        (72000000000, 79200000000)]).seconds_until_next_active
        ⟨0, 43200000000⟩ = 28800 := by
  refine ⟨fun now => rfl, ?_, by decide, by decide, by decide⟩
  intro ws now hne
  obtain ⟨m, hm, hmem, hbd⟩ := minWaitLoop_spec now ws hne
  have hmap : (ws.map fun w => waitUs w.1 now)
      = ws.map fun w => specNextWaitUs w.1 now :=
    congrArg ws.map (funext fun w => waitUs_eq_spec w.1 now)
  refine ⟨m, hmap ▸ hmem, hmap ▸ hbd, ?_⟩
  simp only [Scheduler.seconds_until_next_active, Scheduler.init,
    init_len_beq_false hne, Bool.false_eq_true, if_false, hm]

/-- C6 witness: the non-empty-list conjunct at window (08:00, 10:00) and
07:00 — the least wait is 3600000000 microseconds. -/
theorem claim6_witness :
    ∃ m, m ∈ ([((28800000000 : Nat), (36000000000 : Nat))].map
        (fun w => specNextWaitUs w.1 ⟨0, 25200000000⟩)) ∧
      (∀ x ∈ ([((28800000000 : Nat), (36000000000 : Nat))].map
        (fun w => specNextWaitUs w.1 ⟨0, 25200000000⟩)), m ≤ x) ∧
      (Scheduler.init
        [(28800000000, 36000000000)]).seconds_until_next_active
          ⟨0, 25200000000⟩ = m / 1000000 :=
  claim6_seconds_until_next_active.2.1 [(28800000000, 36000000000)]
    ⟨0, 25200000000⟩ (by decide)

/-- C7 (amended): for every plaintext whose code points are all below 256
and whose length is below `2 ^ 32`, the first 4 bytes of the `encrypt`
output, read as a big-endian unsigned integer, equal the plaintext length
(its character count, which on this domain is its byte count), and the
rest of the output is exactly one byte per input character. -/
theorem claim7_frame (s : List Nat) (hc : ∀ c ∈ s, c < 256)
    (hlen : s.length < 4294967296) :
    ∃ out, encrypt s = some out ∧ fromBE4 (out.take 4) = s.length ∧
      (out.drop 4).length = s.length := by
  obtain ⟨body, hb⟩ := encryptBody_isSome s 171 (by norm_num) hc
  refine ⟨packBE4 s.length ++ body, ?_, ?_, ?_⟩
  · simp [encrypt, hlen, hb]
  · have htake : (packBE4 s.length ++ body).take 4 = packBE4 s.length := rfl
    rw [htake]
    exact fromBE4_packBE4 s.length hlen
  · have hdrop : (packBE4 s.length ++ body).drop 4 = body := rfl
    rw [hdrop]
    exact encryptBody_length s 171 body hb

/-- C7 witness: the amended frame property at the string "hi". -/
theorem claim7_frame_witness :
    ∃ out, encrypt [104, 105] = some out ∧ fromBE4 (out.take 4) = 2 ∧
      (out.drop 4).length = 2 :=
  claim7_frame [104, 105] (by decide) (by norm_num)

/-- C7 counterexample: the claim quantifies over every plaintext; on the
one-character string U+0100 `encrypt` raises before producing any output,
so there are no first 4 bytes, and on any string of length `2 ^ 32` the
`pack` call raises. -/
theorem claim7_cex :
    (¬ ∃ out, encrypt [256] = some out ∧ fromBE4 (out.take 4) = 1 ∧
      (out.drop 4).length = 1) ∧
    encrypt (List.replicate 4294967296 0) = none := by
  refine ⟨?_, encrypt_long_none⟩
  rintro ⟨out, h, -⟩
  rw [encrypt_256_none] at h
  exact Option.noConfusion h

/-- C8 (amended): `encrypt` returns a result for every string whose code
points are below 256 and whose length is below `2 ^ 32` — on the empty
input the degenerate 4-byte-only frame `[0, 0, 0, 0]`; `decrypt` returns a
result on every byte sequence, one in-range character (so every `chr`
succeeds) per input byte. -/
theorem claim8_totality :
    (∀ s : List Nat, (∀ c ∈ s, c < 256) → s.length < 4294967296 →
      ∃ out, encrypt s = some out) ∧
    (∀ b : List Nat, (∀ i ∈ b, i < 256) →
      (decrypt b).length = b.length ∧ ∀ c ∈ decrypt b, c < 256) ∧
    encrypt [] = some [0, 0, 0, 0] := by
  refine ⟨?_, ?_, rfl⟩
  · intro s hc hlen
    obtain ⟨body, hb⟩ := encryptBody_isSome s 171 (by norm_num) hc
    exact ⟨packBE4 s.length ++ body, by simp [encrypt, hlen, hb]⟩
  · intro b hb
    exact ⟨decryptGo_length b 171, decryptGo_lt_256 b 171 (by norm_num) hb⟩

/-- C8 witness: the amended totality at the one-byte string [171] and the
byte sequence [0, 255]. -/
theorem claim8_totality_witness :
    (∃ out, encrypt [171] = some out) ∧
    ((decrypt [0, 255]).length = 2 ∧ ∀ c ∈ decrypt [0, 255], c < 256) :=
  ⟨claim8_totality.1 [171] (by decide) (by norm_num),
   claim8_totality.2.1 [0, 255] (by decide)⟩

/-- C8 counterexample: `encrypt` does have error conditions — it raises
`ValueError` on the string U+0100 and `struct.error` on any input of
length `2 ^ 32`. -/
theorem claim8_cex :
    encrypt [256] = none ∧ encrypt (List.replicate 4294967296 0) = none :=
  ⟨encrypt_256_none, encrypt_long_none⟩

/-- C9: the one-shot tools' codecs compute exactly the same functions as
the core codec — `plug_blink.py`'s `SmartPlug.encrypt`/`decrypt` and
`plug_toggle.py`'s `encrypt`/`decrypt` agree with `plug_tracker.py`'s on
every input. -/
theorem claim9_codec_equivalence :
    (∀ s, SmartPlug.encrypt s = encrypt s) ∧
    (∀ s, SmartPlug.decrypt s = decrypt s) ∧
    (∀ s, PlugToggle.encrypt s = encrypt s) ∧
    (∀ s, PlugToggle.decrypt s = decrypt s) := by
  have hb1 : ∀ (s : List Nat) (key : Nat),
      SmartPlug.encryptBody key s = encryptBody key s := by
    intro s
    induction s with
    | nil => intro key; rfl
    | cons c rest ih =>
      intro key
      simp [SmartPlug.encryptBody, encryptBody, ih]
  have hb2 : ∀ (s : List Nat) (key : Nat),
      PlugToggle.encryptBody key s = encryptBody key s := by
    intro s
    induction s with
    | nil => intro key; rfl
    | cons c rest ih =>
      intro key
      simp [PlugToggle.encryptBody, encryptBody, ih]
  have hd1 : ∀ (s : List Nat) (key : Nat),
      SmartPlug.decryptGo key s = decryptGo key s := by
    intro s
    induction s with
    | nil => intro key; rfl
    | cons i rest ih =>
      intro key
      simp [SmartPlug.decryptGo, decryptGo, ih]
  have hd2 : ∀ (s : List Nat) (key : Nat),
      PlugToggle.decryptGo key s = decryptGo key s := by
    intro s
    induction s with
    | nil => intro key; rfl
    | cons i rest ih =>
      intro key
      simp [PlugToggle.decryptGo, decryptGo, ih]
  refine ⟨?_, ?_, ?_, ?_⟩
  · intro s
    simp [SmartPlug.encrypt, encrypt, hb1]
  · intro s
    simp [SmartPlug.decrypt, decrypt, hd1]
  · intro s
    simp [PlugToggle.encrypt, encrypt, hb2]
  · intro s
    simp [PlugToggle.decrypt, decrypt, hd2]

/-- C10 (amended): for every argument state outside {0, 1},
`set_relay_state` fails with a `KeyError` from the `COMMANDS['state']`
lookup; the connection has already been opened by then (and is closed by
the `finally`), but no send occurs, so no bytes reach the device. -/
theorem claim10_illegal_state (st : Int) (h0 : st ≠ 0) (h1 : st ≠ 1) :
    set_relay_state true st
      = ([Ev.connect, Ev.close], SetOutcome.keyError) := by
  simp [set_relay_state, COMMANDS_state, h0, h1]

/-- C10 witness: the Unknown sentinel `-1` as the argument. -/
theorem claim10_illegal_state_witness :
    set_relay_state true (-1)
      = ([Ev.connect, Ev.close], SetOutcome.keyError) :=
  claim10_illegal_state (-1) (by decide) (by decide)

/-- C10 counterexample: at state `-1` the call does fail with the lookup
error, but not before a connection is opened — `self._connect()` runs on
the line before the lookup, so the event trace contains `connect`. -/
theorem claim10_cex :
    ¬ ((set_relay_state true (-1)).2 = SetOutcome.keyError ∧
      Ev.connect ∉ (set_relay_state true (-1)).1) := by
  decide
